import Mathlib

/-!
Verification of the Sarasota County arrest scraper
(`sarasota_scraper.py`, `sarasota_scraper_v2.py`) against its
natural-language specification.

The Python source is shallowly embedded: pure string/date logic is
translated to executable Lean functions, browser interaction is
abstracted as explicit inputs (element texts, per-attempt outcomes),
and Python exceptions become `Except` values.
-/

namespace Sarasota

/-! ## Basic character/string helpers

Python's `str.strip()`, `re` digit classes and `str.split`-like
behaviour, modelled over `List Char` so everything reduces in the
kernel. -/

/-- whitespace strip on both ends, modelling Python `str.strip()`. -/
def stripChars (cs : List Char) : List Char :=
  ((cs.dropWhile Char.isWhitespace).reverse.dropWhile Char.isWhitespace).reverse

/-- all characters are decimal digits (models the regex class `\d`). -/
def allDigits (cs : List Char) : Bool := cs.all Char.isDigit

/-- split a character list at every occurrence of `sep` (like Python
`str.split(sep)`); an empty input yields one empty component. -/
def splitOnChar (sep : Char) : List Char → List (List Char)
  | [] => [[]]
  | c :: cs =>
    let r := splitOnChar sep cs
    if c == sep then [] :: r
    else
      match r with
      | [] => [[c]]
      | h :: t => (c :: h) :: t

/-- numeric value of a digit string (models `int()` on the digit
groups captured by `strptime`). -/
def digitsToNat (cs : List Char) : Nat :=
  cs.foldl (fun a c => 10 * a + (c.toNat - '0'.toNat)) 0

/-- decimal digit characters of a natural number. -/
def natToChars (n : Nat) : List Char := Nat.toDigits 10 n

/-- zero-pad to two characters, as `strftime` does for `%m` / `%d`. -/
def pad2 (n : Nat) : List Char := if n < 10 then '0' :: natToChars n else natToChars n

/-- zero-pad to four characters, as `strftime` does for `%Y`. -/
def pad4 (n : Nat) : List Char :=
  List.replicate (4 - (natToChars n).length) '0' ++ natToChars n

/-! ## Calendar arithmetic (models Python `datetime.date`) -/

/-- Gregorian leap-year rule used by `datetime`. -/
def isLeap (y : Nat) : Bool := y % 4 == 0 && (y % 100 != 0 || y % 400 == 0)

/-- length of month `m` of year `y`. -/
def daysInMonth (y m : Nat) : Nat :=
  if m == 2 then (if isLeap y then 29 else 28)
  else if m == 4 || m == 6 || m == 9 || m == 11 then 30
  else 31

/-- bounds enforced by the `datetime` constructor (`MINYEAR = 1`,
`MAXYEAR = 9999`, month and day in range for the month). -/
def validYMD (y m d : Nat) : Bool :=
  1 ≤ y && y ≤ 9999 && 1 ≤ m && m ≤ 12 && 1 ≤ d && d ≤ daysInMonth y m

/-- render a date as `YYYY-MM-DD`, modelling
`datetime.strftime("%Y-%m-%d")`. -/
def fmtYMD (y m d : Nat) : String :=
  String.mk (pad4 y ++ '-' :: (pad2 m ++ '-' :: pad2 d))

/-! ## Date Normalizer (`normalize_date`, sarasota_scraper.py:73-80) -/

/-- the regex `^\d{4}-\d{2}-\d{2}$` from `normalize_date`. -/
def matchYMDShape : List Char → Bool
  | [y1, y2, y3, y4, s1, m1, m2, s2, d1, d2] =>
    y1.isDigit && y2.isDigit && y3.isDigit && y4.isDigit && s1 == '-' &&
    m1.isDigit && m2.isDigit && s2 == '-' && d1.isDigit && d2.isDigit
  | _ => false

/-- the regex `^\d{1,2}/\d{1,2}/\d{4}$` from `normalize_date`,
expressed via splitting at `/`. -/
def matchMDYShape (cs : List Char) : Bool :=
  match splitOnChar '/' cs with
  | [ms, ds, ys] =>
    (ms.length == 1 || ms.length == 2) && allDigits ms &&
    (ds.length == 1 || ds.length == 2) && allDigits ds &&
    ys.length == 4 && allDigits ys
  | _ => false

/-- the `(month, day, year)` numeric components of an `M/D/YYYY`
string, as `strptime("%m/%d/%Y")` reads them. -/
def parseMDYParts (cs : List Char) : Option (Nat × Nat × Nat) :=
  match splitOnChar '/' cs with
  | [ms, ds, ys] => some (digitsToNat ms, digitsToNat ds, digitsToNat ys)
  | _ => none

/-- error message raised at sarasota_scraper.py:80. -/
def unrecognizedMsg (d : String) : String := "Unrecognized date format: " ++ d

/-- error raised inside `datetime.strptime` for a string that matches
the `M/D/YYYY` regex but is not a valid calendar date. -/
def strptimeErrMsg : String := "strptime: invalid date"

/-- embedding of `normalize_date` (sarasota_scraper.py:73-80): strip,
accept `YYYY-MM-DD` verbatim, reformat `M/D/YYYY` through
`strptime`/`strftime`, otherwise raise `ValueError`. -/
def normalize_date (input : String) : Except String String :=
  let t := String.mk (stripChars input.data)
  if matchYMDShape t.data then .ok t
  else if matchMDYShape t.data then
    match parseMDYParts t.data with
    | some (m, d, y) =>
      if validYMD y m d then .ok (fmtYMD y m d) else .error strptimeErrMsg
    | none => .error (unrecognizedMsg t)
  else .error (unrecognizedMsg t)

end Sarasota

namespace Sarasota

instance {ε α : Type} [DecidableEq ε] [DecidableEq α] : DecidableEq (Except ε α) :=
  fun a b =>
    match a, b with
    | .ok x, .ok y =>
      if h : x = y then isTrue (by rw [h])
      else isFalse (fun hc => h (Except.ok.inj hc))
    | .error x, .error y =>
      if h : x = y then isTrue (by rw [h])
      else isFalse (fun hc => h (Except.error.inj hc))
    | .ok _, .error _ => isFalse (fun hc => Except.noConfusion hc)
    | .error _, .ok _ => isFalse (fun hc => Except.noConfusion hc)

/-- quick sanity example for `normalize_date` on the two accepted
shapes. -/
theorem normalize_date_examples :
    normalize_date "2025-01-02" = .ok "2025-01-02" ∧
    normalize_date "1/2/2025" = .ok "2025-01-02" ∧
    normalize_date "Jan 2, 2025" = .error (unrecognizedMsg "Jan 2, 2025") := by
  refine ⟨by decide, by decide, by decide⟩

/-- C1 fails as stated: `" 2025-01-01"` has neither accepted shape
(leading space) yet `normalize_date` strips it and accepts it, and
`"13/45/2025"` has the `M/D/YYYY` shape yet `normalize_date` raises
(inside `strptime`) instead of reformatting it. -/
theorem c1_counterexample :
    (matchYMDShape " 2025-01-01".data = false ∧
     matchMDYShape " 2025-01-01".data = false ∧
     normalize_date " 2025-01-01" = Except.ok "2025-01-01") ∧
    (matchMDYShape "13/45/2025".data = true ∧
     normalize_date "13/45/2025" = Except.error strptimeErrMsg) := by
  exact ⟨⟨by decide, by decide, by decide⟩, ⟨by decide, by decide⟩⟩

/-- C1 (amended): after stripping surrounding whitespace,
`normalize_date` returns a `YYYY-MM-DD`-shaped string unchanged,
reformats an `M/D/YYYY`-shaped string to `YYYY-MM-DD` when it is a
valid calendar date and fails inside `strptime` when it is not, and
fails with `InvalidDateFormat` for every other shape. -/
theorem c1_normalize_date_amended (s : String) :
    (matchYMDShape (stripChars s.data) = true →
       normalize_date s = .ok (String.mk (stripChars s.data))) ∧
    (matchYMDShape (stripChars s.data) = false →
     matchMDYShape (stripChars s.data) = true →
       ∀ m d y, parseMDYParts (stripChars s.data) = some (m, d, y) →
         normalize_date s =
           (if validYMD y m d then .ok (fmtYMD y m d) else .error strptimeErrMsg)) ∧
    (matchYMDShape (stripChars s.data) = false →
     matchMDYShape (stripChars s.data) = false →
       normalize_date s = .error (unrecognizedMsg (String.mk (stripChars s.data)))) := by
  unfold normalize_date
  refine ⟨fun h1 => ?_, fun h1 h2 m d y hp => ?_, fun h1 h2 => ?_⟩
  · simp [h1]
  · simp [h1, h2, hp]
  · simp [h1, h2]

/-- C1 (witness): the amended theorem applied at the concrete inputs
`"2025-01-02"`, `"1/2/2025"` and `"Jan 2, 2025"`. -/
theorem c1_witness :
    normalize_date "2025-01-02" = Except.ok "2025-01-02" ∧
    normalize_date "1/2/2025" = Except.ok "2025-01-02" ∧
    normalize_date "Jan 2, 2025" = Except.error (unrecognizedMsg "Jan 2, 2025") := by
  refine ⟨?_, ?_, ?_⟩
  · have h := (c1_normalize_date_amended "2025-01-02").1 (by decide)
    rw [h]
    decide
  · have h := (c1_normalize_date_amended "1/2/2025").2.1 (by decide) (by decide)
      1 2 2025 (by decide)
    rw [h]
    decide
  · have h := (c1_normalize_date_amended "Jan 2, 2025").2.2 (by decide) (by decide)
    rw [h]
    decide

/-! ## Date range (`daterange`, sarasota_scraper.py:83-90)

Python `datetime` values are calendar dates; `timedelta(days=1)`
addition is the calendar successor and `<=` is lexicographic on
`(year, month, day)`. -/

/-- calendar triple `(year, month, day)`. -/
structure Ymd where
  y : Nat
  m : Nat
  d : Nat
deriving DecidableEq, Repr

/-- month and day are in range (no upper year bound; `datetime`
addition enforces `MAXYEAR` separately). -/
def wfYmd (t : Ymd) : Bool :=
  1 ≤ t.y && 1 ≤ t.m && t.m ≤ 12 && 1 ≤ t.d && t.d ≤ daysInMonth t.y t.m

/-- wellformed calendar date, the state of the `daterange` loop. -/
def Date := {t : Ymd // wfYmd t = true}

instance : DecidableEq Date := Subtype.instDecidableEq

/-- lexicographic comparison, modelling `datetime.__le__`. -/
def dateLe (a b : Ymd) : Bool :=
  a.y < b.y || (a.y == b.y && (a.m < b.m || (a.m == b.m && a.d ≤ b.d)))

/-- successor calendar day, modelling `s + timedelta(days=1)`. -/
def nextDay (t : Ymd) : Ymd :=
  if t.d < daysInMonth t.y t.m then ⟨t.y, t.m, t.d + 1⟩
  else if t.m < 12 then ⟨t.y, t.m + 1, 1⟩
  else ⟨t.y + 1, 1, 1⟩

theorem one_le_daysInMonth (y m : Nat) : 1 ≤ daysInMonth y m := by
  unfold daysInMonth
  split
  · split <;> omega
  · split <;> omega

theorem daysInMonth_le (y m : Nat) : daysInMonth y m ≤ 31 := by
  unfold daysInMonth
  split
  · split <;> omega
  · split <;> omega

theorem nextDay_wf (t : Ymd) (h : wfYmd t = true) : wfYmd (nextDay t) = true := by
  simp only [wfYmd, Bool.and_eq_true, decide_eq_true_eq] at h ⊢
  unfold nextDay
  split
  · simp only [Bool.and_eq_true, decide_eq_true_eq]
    omega
  · split <;> simp only [Bool.and_eq_true, decide_eq_true_eq]
    · have h5 := one_le_daysInMonth t.y (t.m + 1)
      omega
    · have h5 := one_le_daysInMonth (t.y + 1) 1
      omega

/-- successor on wellformed dates. -/
def Date.next (s : Date) : Date := ⟨nextDay s.val, nextDay_wf s.val s.property⟩

/-- render a calendar triple, modelling `strftime("%Y-%m-%d")`. -/
def fmtDate (t : Ymd) : String := fmtYMD t.y t.m t.d

/-- last representable date: `datetime.date(9999, 12, 31)`; adding one
day to it raises `OverflowError`. -/
def maxYmd : Ymd := ⟨9999, 12, 31⟩

/-- message of the `OverflowError` raised by `datetime` addition past
`MAXYEAR`. -/
def overflowMsg : String := "date value out of range"

/-- embedding of `datetime.strptime(s, "%Y-%m-%d")` followed by use as
a calendar date: digit groups split by `-`, ranges validated by the
`datetime` constructor. -/
def strptimeDate (s : String) : Except String Date :=
  match splitOnChar '-' s.data with
  | [ys, ms, ds] =>
    if allDigits ys && (1 ≤ ys.length && ys.length ≤ 4) &&
       allDigits ms && (1 ≤ ms.length && ms.length ≤ 2) &&
       allDigits ds && (1 ≤ ds.length && ds.length ≤ 2) then
      if h : validYMD (digitsToNat ys) (digitsToNat ms) (digitsToNat ds) = true then
        .ok ⟨⟨digitsToNat ys, digitsToNat ms, digitsToNat ds⟩, by
          simp only [validYMD, Bool.and_eq_true, decide_eq_true_eq] at h
          simp only [wfYmd, Bool.and_eq_true, decide_eq_true_eq]
          omega⟩
      else .error strptimeErrMsg
    else .error strptimeErrMsg
  | _ => .error strptimeErrMsg

/-- one endpoint of `daterange`:
`datetime.strptime(normalize_date(x), "%Y-%m-%d")`
(sarasota_scraper.py:85-86). -/
def endpointDate (x : String) : Except String Date :=
  (normalize_date x).bind strptimeDate

/-- the `while s <= e: yield s.strftime(...); s += step` loop of
`daterange` (sarasota_scraper.py:87-90); values yielded before an
`OverflowError` are lost because `main` drains the generator with
`list(...)`. -/
def drAux (s e : Date) : Except String (List String) :=
  if dateLe s.val e.val then
    if s.val = maxYmd then .error overflowMsg
    else (drAux s.next e).map (fun l => fmtDate s.val :: l)
  else .ok []
termination_by (e.val.y + 1 - s.val.y) * 500 + (13 - s.val.m) * 40 + (32 - s.val.d)
decreasing_by
  have hw := s.property
  simp only [wfYmd, Bool.and_eq_true, decide_eq_true_eq] at hw
  have hdm := daysInMonth_le s.val.y s.val.m
  rename_i hle _
  simp only [dateLe, Bool.or_eq_true, Bool.and_eq_true, beq_iff_eq,
    decide_eq_true_eq] at hle
  simp only [Date.next, nextDay]
  split
  · simp only []
    omega
  · split <;> simp only [] <;> omega

/-- embedding of `daterange(start, end)` (sarasota_scraper.py:83-90). -/
def daterange (start end_ : String) : Except String (List String) :=
  match endpointDate start with
  | .error msg => .error msg
  | .ok s =>
    match endpointDate end_ with
    | .error msg => .error msg
    | .ok e => drAux s e

theorem drAux_stop (s e : Date) (h : dateLe s.val e.val = false) :
    drAux s e = .ok [] := by
  rw [drAux]
  simp [h]

theorem drAux_step (s e : Date) (h1 : dateLe s.val e.val = true)
    (h2 : s.val ≠ maxYmd) :
    drAux s e = (drAux s.next e).map (fun l => fmtDate s.val :: l) := by
  rw [drAux]
  simp [h1, h2]

theorem drAux_overflow (s e : Date) (h1 : dateLe s.val e.val = true)
    (h2 : s.val = maxYmd) :
    drAux s e = .error overflowMsg := by
  rw [drAux]
  rw [h2] at h1 ⊢
  simp [h1]

/-- a wellformed date with year at most 9999 that is at least `maxYmd`
in the date order is `maxYmd` itself. -/
theorem eq_max_of_max_le (e : Date) (h : dateLe maxYmd e.val = true)
    (hy : e.val.y ≤ 9999) : e.val = maxYmd := by
  obtain ⟨⟨ey, em, ed⟩, hew⟩ := e
  simp only [wfYmd, Bool.and_eq_true, decide_eq_true_eq] at hew
  simp only [dateLe, maxYmd, Bool.or_eq_true, Bool.and_eq_true, beq_iff_eq,
    decide_eq_true_eq] at h
  simp only [maxYmd, Ymd.mk.injEq]
  have hy' : ey ≤ 9999 := hy
  have hy2 : ey = 9999 := by omega
  subst hy2
  have hm2 : em = 12 := by omega
  subst hm2
  have h31 : daysInMonth 9999 12 = 31 := by decide
  omega

/-- `nextDay` is the immediate successor: a wellformed date at least
`s` and less than `nextDay s` equals `s`. -/
theorem eq_of_le_of_next_not_le (s e : Date) (h1 : dateLe s.val e.val = true)
    (h2 : dateLe (Date.next s).val e.val = false) : s = e := by
  obtain ⟨⟨sy, sm, sd⟩, hsw⟩ := s
  obtain ⟨⟨ey, em, ed⟩, hew⟩ := e
  apply Subtype.ext
  rw [← Bool.not_eq_true] at h2
  simp only [wfYmd, Bool.and_eq_true, decide_eq_true_eq] at hsw hew
  simp only [dateLe, Bool.or_eq_true, Bool.and_eq_true, beq_iff_eq,
    decide_eq_true_eq] at h1
  simp only [Date.next, nextDay] at h2
  simp only [Ymd.mk.injEq]
  split at h2
  · simp only [dateLe, Bool.or_eq_true, Bool.and_eq_true, beq_iff_eq,
      decide_eq_true_eq] at h2
    have hy' : ey = sy := by omega
    subst hy'
    have hm' : em = sm := by omega
    subst hm'
    omega
  · split at h2
    · simp only [dateLe, Bool.or_eq_true, Bool.and_eq_true, beq_iff_eq,
        decide_eq_true_eq] at h2
      have hy' : ey = sy := by omega
      subst hy'
      have hm' : em = sm := by omega
      subst hm'
      omega
    · simp only [dateLe, Bool.or_eq_true, Bool.and_eq_true, beq_iff_eq,
        decide_eq_true_eq] at h2
      have hy' : ey = sy := by omega
      subst hy'
      have hm' : em = sm := by omega
      subst hm'
      omega

/-- structural description of the `daterange` loop: when the end date
is below the overflow boundary, the loop yields the formatted dates of
a chain of consecutive calendar days from `s` to `e` inclusive, and
yields nothing exactly when `s > e`. -/
theorem drAux_spec (s e : Date) (hy : e.val.y ≤ 9999) (hmax : e.val ≠ maxYmd) :
    ∃ ds : List Date,
      drAux s e = .ok (ds.map (fun t => fmtDate t.val)) ∧
      (dateLe s.val e.val = true →
        ds.head? = some s ∧ ds.getLast? = some e ∧
        List.Chain' (fun a b => b = Date.next a) ds) ∧
      (dateLe s.val e.val = false → ds = []) := by
  revert hy hmax
  induction s, e using drAux.induct with
  | case1 s e h1 h2 =>
    intro hy hmax
    rw [h2] at h1
    exact absurd (eq_max_of_max_le e h1 hy) hmax
  | case2 s e h1 h2 ih =>
    intro hy hmax
    obtain ⟨ds', hEq, hT, hF⟩ := ih hy hmax
    refine ⟨s :: ds', ?_, ?_, ?_⟩
    · rw [drAux_step s e h1 h2, hEq]
      rfl
    · intro _
      refine ⟨rfl, ?_, ?_⟩
      · cases hle2 : dateLe (Date.next s).val e.val with
        | true =>
          obtain ⟨hh, hl, _⟩ := hT hle2
          cases ds' with
          | nil => simp at hh
          | cons a l => rw [List.getLast?_cons_cons]; exact hl
        | false =>
          rw [hF hle2]
          rw [eq_of_le_of_next_not_le s e h1 hle2]
          rfl
      · cases hle2 : dateLe (Date.next s).val e.val with
        | true =>
          obtain ⟨hh, _, hc⟩ := hT hle2
          refine List.chain'_cons'.mpr ⟨?_, hc⟩
          intro b hb
          cases ds' with
          | nil => simp at hb
          | cons a l =>
            simp only [List.head?_cons, Option.some.injEq] at hh
            have hba : b = a := by
              have := hb
              simp only [List.head?_cons, Option.mem_def, Option.some.injEq] at this
              exact this.symm
            rw [hba, hh]
        | false =>
          rw [hF hle2]
          exact List.chain'_singleton s
    · intro hf
      rw [h1] at hf
      cases hf
  | case3 s e h1 =>
    intro hy hmax
    have h1' : dateLe s.val e.val = false := by
      cases h : dateLe s.val e.val with
      | true => exact absurd h h1
      | false => rfl
    refine ⟨[], ?_, ?_, fun _ => rfl⟩
    · rw [drAux_stop s e h1']
      rfl
    · intro h
      rw [h1'] at h
      cases h

theorem strptimeDate_valid (x : String) (d : Date) (h : strptimeDate x = .ok d) :
    validYMD d.val.y d.val.m d.val.d = true := by
  unfold strptimeDate at h
  split at h
  · split at h
    · split at h
      · rename_i hv
        simp only [Except.ok.injEq] at h
        subst h
        exact hv
      · exact Except.noConfusion h
    · exact Except.noConfusion h
  · exact Except.noConfusion h

theorem strptimeDate_year (x : String) (d : Date) (h : strptimeDate x = .ok d) :
    d.val.y ≤ 9999 := by
  have hv := strptimeDate_valid x d h
  simp only [validYMD, Bool.and_eq_true, decide_eq_true_eq] at hv
  omega

theorem endpointDate_year (x : String) (d : Date) (h : endpointDate x = .ok d) :
    d.val.y ≤ 9999 := by
  unfold endpointDate at h
  cases hn : normalize_date x with
  | error m => rw [hn] at h; exact Except.noConfusion h
  | ok t =>
    rw [hn] at h
    exact strptimeDate_year t d h

/-- C2 fails as stated: both endpoints of
`daterange("2025-13-01", "2025-13-01")` normalize successfully
(`normalize_date` passes `YYYY-MM-DD`-shaped strings through without
validating them), yet `daterange` raises inside
`datetime.strptime` instead of yielding calendar days. -/
theorem c2_counterexample :
    normalize_date "2025-13-01" = Except.ok "2025-13-01" ∧
    daterange "2025-13-01" "2025-13-01" = Except.error strptimeErrMsg := by
  exact ⟨by decide, by decide⟩

/-- C2 (amended): whenever both endpoints normalize and additionally
parse as valid calendar dates, and the range does not run past the
last representable date `9999-12-31`, `daterange` yields the chain of
consecutive calendar days from start to end inclusive, in ascending
one-day steps, and yields zero elements exactly when start > end; it
propagates the `InvalidDateFormat` error when either endpoint fails
normalization, and `daterange("2025-01-01","2025-01-03")` yields
exactly `["2025-01-01","2025-01-02","2025-01-03"]`. -/
theorem c2_daterange_amended :
    (∀ start end_ (s e : Date),
        endpointDate start = .ok s → endpointDate end_ = .ok e →
        e.val ≠ maxYmd →
        ∃ ds : List Date,
          daterange start end_ = .ok (ds.map (fun t => fmtDate t.val)) ∧
          (dateLe s.val e.val = true →
            ds.head? = some s ∧ ds.getLast? = some e ∧
            List.Chain' (fun a b => b = Date.next a) ds) ∧
          (dateLe s.val e.val = false → ds = [])) ∧
    (∀ start end_ msg, normalize_date start = .error msg →
        daterange start end_ = .error msg) ∧
    (∀ start end_ (s : Date) msg, endpointDate start = .ok s →
        normalize_date end_ = .error msg →
        daterange start end_ = .error msg) ∧
    daterange "2025-01-01" "2025-01-03" =
      .ok ["2025-01-01", "2025-01-02", "2025-01-03"] := by
  refine ⟨?_, ?_, ?_, ?_⟩
  · intro start end_ s e hs he hmax
    have hy := endpointDate_year end_ e he
    obtain ⟨ds, hEq, hT, hF⟩ := drAux_spec s e hy hmax
    refine ⟨ds, ?_, hT, hF⟩
    simp only [daterange, hs, he]
    exact hEq
  · intro start end_ msg h
    simp only [daterange, endpointDate, h, Except.bind]
  · intro start end_ s msg hs h
    simp only [daterange, hs]
    simp only [endpointDate, h, Except.bind]
  · have h1 : endpointDate "2025-01-01" = .ok ⟨⟨2025, 1, 1⟩, by decide⟩ := by decide
    have h3 : endpointDate "2025-01-03" = .ok ⟨⟨2025, 1, 3⟩, by decide⟩ := by decide
    simp only [daterange, h1, h3]
    rw [drAux_step _ _ (by decide) (by decide)]
    rw [drAux_step _ _ (by decide) (by decide)]
    rw [drAux_step _ _ (by decide) (by decide)]
    rw [drAux_stop _ _ (by decide)]
    decide

/-- C2 (witness): the amended theorem applied at the endpoints
`"2025-01-01"`/`"2025-01-02"` and at a malformed endpoint `"nope"`. -/
theorem c2_witness :
    (∃ ds : List Date,
        daterange "2025-01-01" "2025-01-02" =
          .ok (ds.map (fun t => fmtDate t.val)) ∧
        (dateLe (⟨⟨2025, 1, 1⟩, by decide⟩ : Date).val
            (⟨⟨2025, 1, 2⟩, by decide⟩ : Date).val = true →
          ds.head? = some ⟨⟨2025, 1, 1⟩, by decide⟩ ∧
          ds.getLast? = some ⟨⟨2025, 1, 2⟩, by decide⟩ ∧
          List.Chain' (fun a b => b = Date.next a) ds) ∧
        (dateLe (⟨⟨2025, 1, 1⟩, by decide⟩ : Date).val
            (⟨⟨2025, 1, 2⟩, by decide⟩ : Date).val = false → ds = [])) ∧
    daterange "nope" "2025-01-01" = .error (unrecognizedMsg "nope") ∧
    daterange "2025-01-01" "nope" = .error (unrecognizedMsg "nope") := by
  refine ⟨?_, ?_, ?_⟩
  · exact c2_daterange_amended.1 "2025-01-01" "2025-01-02"
      ⟨⟨2025, 1, 1⟩, by decide⟩ ⟨⟨2025, 1, 2⟩, by decide⟩
      (by decide) (by decide) (by decide)
  · exact c2_daterange_amended.2.1 "nope" "2025-01-01"
      (unrecognizedMsg "nope") (by decide)
  · exact c2_daterange_amended.2.2.1 "2025-01-01" "nope"
      ⟨⟨2025, 1, 1⟩, by decide⟩ (unrecognizedMsg "nope") (by decide) (by decide)

/-! ## ArrestRow and deduplication (sarasota_scraper.py:58-70, 367-375) -/

/-- entry URL constant (sarasota_scraper.py:21), the dataclass default
for `source_url`. -/
def ENTRY_URL : String := "https://www.sarasotasheriff.org/arrest-reports/index.php"

/-- embedding of the `ArrestRow` dataclass (sarasota_scraper.py:58-70);
every field defaults to `None` except `source_url`, which defaults to
`ENTRY_URL`. -/
structure ArrestRow where
  arrest_date : Option String := none
  name : Option String := none
  dob : Option String := none
  age : Option String := none
  charges : Option String := none
  agency : Option String := none
  booking_number : Option String := none
  bond : Option String := none
  arrest_time : Option String := none
  source_url : Option String := some ENTRY_URL
deriving DecidableEq, Repr

/-- identity key built at sarasota_scraper.py:371:
`(r.name, r.arrest_date, r.booking_number, r.charges)`. -/
def dedupKey (r : ArrestRow) :
    Option String × Option String × Option String × Option String :=
  (r.name, r.arrest_date, r.booking_number, r.charges)

/-- the dedup loop of `scrape_for_date` (sarasota_scraper.py:367-375):
`seen` starts empty, a row is kept iff its key was not seen before. -/
def dedupeGo
    (seen : List (Option String × Option String × Option String × Option String)) :
    List ArrestRow → List ArrestRow
  | [] => []
  | r :: rs =>
    if dedupKey r ∈ seen then dedupeGo seen rs
    else r :: dedupeGo (dedupKey r :: seen) rs

/-- deduplication as performed on the extracted rows. -/
def dedupe (rows : List ArrestRow) : List ArrestRow := dedupeGo [] rows

theorem dedupeGo_sublist (seen) (rows : List ArrestRow) :
    (dedupeGo seen rows).Sublist rows := by
  induction rows generalizing seen with
  | nil => simp [dedupeGo]
  | cons r rs ih =>
    simp only [dedupeGo]
    split
    · exact (ih seen).cons r
    · exact (ih _).cons₂ r

theorem dedupeGo_first (seen) (rows : List ArrestRow) (r : ArrestRow)
    (h : r ∈ dedupeGo seen rows) :
    dedupKey r ∉ seen ∧
    ∃ l1 l2, rows = l1 ++ r :: l2 ∧ ∀ x ∈ l1, dedupKey x ≠ dedupKey r := by
  induction rows generalizing seen with
  | nil => simp [dedupeGo] at h
  | cons r0 rs ih =>
    simp only [dedupeGo] at h
    split at h
    · rename_i hin
      obtain ⟨hnot, l1, l2, hsplit, hkeys⟩ := ih seen h
      refine ⟨hnot, r0 :: l1, l2, by rw [hsplit]; rfl, ?_⟩
      intro x hx
      rcases List.mem_cons.mp hx with hx0 | hx1
      · subst hx0
        intro hk
        rw [hk] at hin
        exact hnot hin
      · exact hkeys x hx1
    · rename_i hin
      rcases List.mem_cons.mp h with rfl | h1
      · exact ⟨hin, [], rs, rfl, by simp⟩
      · obtain ⟨hnot, l1, l2, hsplit, hkeys⟩ := ih _ h1
        have hne : dedupKey r ≠ dedupKey r0 := fun he =>
          hnot (by rw [he]; exact List.mem_cons_self _ _)
        refine ⟨fun hs => hnot (List.mem_cons_of_mem _ hs),
          r0 :: l1, l2, by rw [hsplit]; rfl, ?_⟩
        intro x hx
        rcases List.mem_cons.mp hx with rfl | hx1
        · exact fun he => hne he.symm
        · exact hkeys x hx1

theorem dedupeGo_covers (seen) (rows : List ArrestRow) (r : ArrestRow)
    (h : r ∈ rows) :
    dedupKey r ∈ seen ∨
    ∃ r', r' ∈ dedupeGo seen rows ∧ dedupKey r' = dedupKey r := by
  induction rows generalizing seen with
  | nil => simp at h
  | cons r0 rs ih =>
    simp only [dedupeGo]
    rcases List.mem_cons.mp h with rfl | h1
    · split
      · rename_i hin
        exact Or.inl hin
      · exact Or.inr ⟨r, List.mem_cons_self _ _, rfl⟩
    · split
      · exact ih seen h1
      · rcases ih (dedupKey r0 :: seen) h1 with hmem | ⟨r', hr', hk⟩
        · rcases List.mem_cons.mp hmem with heq | hseen
          · exact Or.inr ⟨r0, List.mem_cons_self _ _, heq.symm⟩
          · exact Or.inl hseen
        · exact Or.inr ⟨r', List.mem_cons_of_mem _ hr', hk⟩

theorem dedupeGo_nodupKeys (seen) (rows : List ArrestRow) :
    ((dedupeGo seen rows).map dedupKey).Nodup := by
  induction rows generalizing seen with
  | nil => simp [dedupeGo]
  | cons r0 rs ih =>
    simp only [dedupeGo]
    split
    · exact ih seen
    · simp only [List.map_cons, List.nodup_cons]
      refine ⟨?_, ih _⟩
      intro hmem
      rcases List.mem_map.mp hmem with ⟨x, hx, hk⟩
      have hx' := (dedupeGo_first _ _ _ hx).1
      rw [hk] at hx'
      exact hx' (List.mem_cons_self _ _)

/-- two records identical on the dedup key and differing only in bond
(concrete instance for C3). -/
def bondRecA : ArrestRow :=
  { name := some "Jane Doe", arrest_date := some "01/02/2025",
    booking_number := some "B12345", bond := some "500" }

def bondRecB : ArrestRow := { bondRecA with bond := some "1000" }

/-- C3: `dedupe` is stable and order-preserving with first occurrence
winning, keyed on the exact 4-tuple (name, arrest_date,
booking_number, charges) with `None` a distinct-but-consistent value;
two records equal on the key but differing in bond collapse to the
first. -/
theorem c3_dedupe (rows : List ArrestRow) :
    (dedupe rows).Sublist rows ∧
    (∀ r, r ∈ dedupe rows →
        ∃ l1 l2, rows = l1 ++ r :: l2 ∧ ∀ x ∈ l1, dedupKey x ≠ dedupKey r) ∧
    (∀ r, r ∈ rows → ∃ r', r' ∈ dedupe rows ∧ dedupKey r' = dedupKey r) ∧
    ((dedupe rows).map dedupKey).Nodup ∧
    dedupe [bondRecA, bondRecB] = [bondRecA] := by
  refine ⟨dedupeGo_sublist [] rows, ?_, ?_, dedupeGo_nodupKeys [] rows, by decide⟩
  · intro r hr
    exact (dedupeGo_first [] rows r hr).2
  · intro r hr
    rcases dedupeGo_covers [] rows r hr with hmem | hex
    · simp at hmem
    · exact hex

/-- C3 (witness): the theorem applied to the concrete two-record list,
discharging the membership hypotheses there. -/
theorem c3_witness :
    (∃ l1 l2, [bondRecA, bondRecB] = l1 ++ bondRecA :: l2 ∧
        ∀ x ∈ l1, dedupKey x ≠ dedupKey bondRecA) ∧
    (∃ r', r' ∈ dedupe [bondRecA, bondRecB] ∧ dedupKey r' = dedupKey bondRecB) := by
  refine ⟨?_, ?_⟩
  · exact (c3_dedupe [bondRecA, bondRecB]).2.1 bondRecA (by decide)
  · exact (c3_dedupe [bondRecA, bondRecB]).2.2.1 bondRecB (by decide)

/-! ## Whole-session retry (tenacity decorators,
sarasota_scraper.py:267-272 and sarasota_scraper_v2.py:33-38)

The decorated session body is browser interaction; it is abstracted as
a function from the 1-based attempt number to that attempt's outcome.
The `tenacity` combinator semantics (documented behaviour of
`retry(reraise=True, stop=stop_after_attempt(n), wait=...,
retry=retry_if_exception_type(PWTimeoutError))`) are: run the attempt;
return its value on success; re-raise immediately on a non-timeout
exception; on a timeout, re-raise if `n` attempts have run, otherwise
wait and try again. -/

/-- outcome of one attempt of the session body. -/
inductive AttemptOutcome (α : Type) where
  | ok (a : α)
  | timeoutErr
  | otherErr
deriving DecidableEq, Repr

/-- final outcome of the retried call, recording how many attempts
ran. -/
inductive RetryResult (α : Type) where
  | returned (a : α) (attempts : Nat)
  | raisedTimeout (attempts : Nat)
  | raisedOther (attempts : Nat)
deriving DecidableEq, Repr

/-- retry loop: `fuel` counts the retries still allowed after the
current attempt. -/
def tenacityGo {α : Type} (f : Nat → AttemptOutcome α) :
    Nat → Nat → RetryResult α
  | attempt, fuel =>
    match f attempt with
    | .ok a => .returned a attempt
    | .otherErr => .raisedOther attempt
    | .timeoutErr =>
      match fuel with
      | 0 => .raisedTimeout attempt
      | fuel' + 1 => tenacityGo f (attempt + 1) fuel'

/-- `@retry(stop=stop_after_attempt(maxAttempts), reraise=True,
retry=retry_if_exception_type(PWTimeoutError))` applied to a session
body. -/
def tenacityRun {α : Type} (maxAttempts : Nat) (f : Nat → AttemptOutcome α) :
    RetryResult α :=
  tenacityGo f 1 (maxAttempts - 1)

/-- wait before retry number `k + 1`, i.e. after failed attempt `k`,
modelling `wait_exponential(multiplier=1, min=1, max=6)`: one second
doubling, clamped to `[1, 6]`. -/
def backoffWait (k : Nat) : Nat := max 1 (min (2 ^ (k - 1)) 6)

/-- retry decorator of `scrape_for_date` in sarasota_scraper.py
(lines 267-272): `stop_after_attempt(3)`. -/
def scrapeRetryV1 {α : Type} (f : Nat → AttemptOutcome α) : RetryResult α :=
  tenacityRun 3 f

/-- retry decorator of `scrape_for_date` in sarasota_scraper_v2.py
(lines 33-38): `stop_after_attempt(2)`. -/
def scrapeRetryV2 {α : Type} (f : Nat → AttemptOutcome α) : RetryResult α :=
  tenacityRun 2 f

/-- session body that times out on the first two attempts and then
succeeds. -/
def timeoutTwice : Nat → AttemptOutcome Nat
  | 1 => .timeoutErr
  | 2 => .timeoutErr
  | _ => .ok 42

/-- C4 fails as stated: the claim's sources include the v2 decorator,
whose `stop_after_attempt(2)` exhausts the attempts at the second
timeout, so a session that times out twice never reaches a third,
successful attempt there (while the v1 decorator does return it). -/
theorem c4_counterexample :
    scrapeRetryV2 timeoutTwice = .raisedTimeout 2 ∧
    scrapeRetryV1 timeoutTwice = .returned 42 3 := by
  exact ⟨by decide, by decide⟩

/-- C4 (amended): retry is restricted to timeout-class failures — a
non-timeout error on the first attempt fails immediately in both
variants; v1 stops after 3 attempts, so timeout-timeout-success
returns the success on attempt 3 with no further retries; v2 stops
after 2 attempts, so the second timeout is re-raised; the backoff wait
starts at 1s, doubles, and is capped at 6s. -/
theorem c4_retry_amended :
    (∀ (f : Nat → AttemptOutcome Nat), f 1 = .otherErr →
        scrapeRetryV1 f = .raisedOther 1 ∧ scrapeRetryV2 f = .raisedOther 1) ∧
    (∀ (f : Nat → AttemptOutcome Nat) (a : Nat),
        f 1 = .timeoutErr → f 2 = .timeoutErr → f 3 = .ok a →
        scrapeRetryV1 f = .returned a 3) ∧
    (∀ (f : Nat → AttemptOutcome Nat),
        f 1 = .timeoutErr → f 2 = .timeoutErr →
        scrapeRetryV2 f = .raisedTimeout 2) ∧
    (backoffWait 1 = 1 ∧ (∀ k, 1 ≤ backoffWait k ∧ backoffWait k ≤ 6) ∧
      ∀ k, 1 ≤ k → backoffWait (k + 1) = min (2 * backoffWait k) 6) := by
  refine ⟨?_, ?_, ?_, by decide, ?_, ?_⟩
  · intro f h1
    constructor <;> simp [scrapeRetryV1, scrapeRetryV2, tenacityRun, tenacityGo, h1]
  · intro f a h1 h2 h3
    simp [scrapeRetryV1, tenacityRun, tenacityGo, h1, h2, h3]
  · intro f h1 h2
    simp [scrapeRetryV2, tenacityRun, tenacityGo, h1, h2]
  · intro k
    unfold backoffWait
    have h1 : 1 ≤ 2 ^ (k - 1) := Nat.one_le_two_pow
    omega
  · intro k hk
    unfold backoffWait
    have h1 : 1 ≤ 2 ^ (k - 1) := Nat.one_le_two_pow
    have h2 : 2 ^ (k + 1 - 1) = 2 * 2 ^ (k - 1) := by
      rw [show k + 1 - 1 = (k - 1) + 1 by omega, pow_succ]
      ring
    omega

/-- C4 (witness): the amended theorem applied to concrete session
bodies. -/
theorem c4_witness :
    scrapeRetryV1 (fun _ => (AttemptOutcome.otherErr : AttemptOutcome Nat)) =
      RetryResult.raisedOther 1 ∧
    scrapeRetryV1 timeoutTwice = .returned 42 3 ∧
    scrapeRetryV2 timeoutTwice = .raisedTimeout 2 ∧
    backoffWait 3 = min (2 * backoffWait 2) 6 := by
  refine ⟨(c4_retry_amended.1 (fun _ => .otherErr) rfl).1,
    c4_retry_amended.2.1 timeoutTwice 42 rfl rfl rfl,
    c4_retry_amended.2.2.1 timeoutTwice rfl rfl,
    c4_retry_amended.2.2.2.2.2 2 (by decide)⟩

/-! ## Batch driver (`main`, sarasota_scraper.py:437-446)

The loop `for d in dates: try: recs = scrape_for_date(d);
all_records.extend(recs) except: log`, with the per-date session
abstracted as its outcome. -/

/-- embedding of the per-date loop of `main`: a failing date
contributes nothing, a succeeding date appends its records. -/
def mainLoop (result : String → Except String (List ArrestRow)) :
    List String → List ArrestRow
  | [] => []
  | d :: ds =>
    match result d with
    | .ok recs => recs ++ mainLoop result ds
    | .error _ => mainLoop result ds

theorem mainLoop_append (result) (ds1 ds2 : List String) :
    mainLoop result (ds1 ++ ds2) = mainLoop result ds1 ++ mainLoop result ds2 := by
  induction ds1 with
  | nil => simp [mainLoop]
  | cons d ds ih =>
    simp only [List.cons_append, mainLoop]
    cases result d with
    | ok recs => simp [ih]
    | error _ => simpa using ih

/-- per-date result function for the concrete three-date batch whose
second date fails. -/
def threeDayResult (recs1 recs3 : List ArrestRow) (msg : String) :
    String → Except String (List ArrestRow) :=
  fun d =>
    if d = "2025-01-01" then .ok recs1
    else if d = "2025-01-02" then .error msg
    else .ok recs3

/-- C5: a date whose session fails (with any error) is excluded from
the aggregate and never aborts the remaining dates; a batch of three
dates whose second fails still returns the records of dates 1 and 3 in
order. -/
theorem c5_batch_isolation (result : String → Except String (List ArrestRow)) :
    (∀ ds1 ds2 dbad msg, result dbad = .error msg →
        mainLoop result (ds1 ++ dbad :: ds2) =
          mainLoop result ds1 ++ mainLoop result ds2) ∧
    (∀ dates, mainLoop result dates =
        (dates.map (fun d => match result d with
          | .ok recs => recs
          | .error _ => [])).flatten) ∧
    (∀ recs1 recs3 msg,
        mainLoop (threeDayResult recs1 recs3 msg)
          ["2025-01-01", "2025-01-02", "2025-01-03"] = recs1 ++ recs3) := by
  refine ⟨?_, ?_, ?_⟩
  · intro ds1 ds2 dbad msg hbad
    rw [mainLoop_append]
    simp only [mainLoop, hbad]
  · intro dates
    induction dates with
    | nil => simp [mainLoop]
    | cons d ds ih =>
      simp only [mainLoop, List.map_cons, List.flatten_cons]
      cases result d with
      | ok recs => simp [ih]
      | error _ => simp [ih]
  · intro recs1 recs3 msg
    simp [mainLoop, threeDayResult]

/-- C5 (witness): the theorem applied with a concrete failing middle
date. -/
theorem c5_witness :
    mainLoop (threeDayResult [bondRecA] [bondRecB] "boom")
        (["2025-01-01"] ++ "2025-01-02" :: ["2025-01-03"]) =
      mainLoop (threeDayResult [bondRecA] [bondRecB] "boom") ["2025-01-01"] ++
        mainLoop (threeDayResult [bondRecA] [bondRecB] "boom") ["2025-01-03"] := by
  exact (c5_batch_isolation (threeDayResult [bondRecA] [bondRecB] "boom")).1
    ["2025-01-01"] ["2025-01-03"] "2025-01-02" "boom" (by decide)

/-! ## Table-strategy extraction (`extract_rows_from_table`,
sarasota_scraper.py:147-167)

The DOM is abstracted as the header-cell texts and the body rows'
cell texts. -/

/-- strip then lowercase, as applied to header cells
(`h.inner_text().strip().lower()`). -/
def lowerStrip (s : String) : String :=
  String.mk ((stripChars s.data).map Char.toLower)

/-- strip only, as applied to body cells (`c.inner_text().strip()`). -/
def stripStr (s : String) : String := String.mk (stripChars s.data)

/-- lookup in a Python dict built by `dict(zip(headers, cells))`: a
repeated key keeps its last value. -/
def pyDictGet (pairs : List (String × String)) (k : String) : Option String :=
  match pairs.reverse.find? (fun p => p.1 == k) with
  | some p => some p.2
  | none => none

/-- Python `a or b` on two `.get` results: `None` and the empty string
are falsy. -/
def pyOr (a b : Option String) : Option String :=
  match a with
  | some s => if s = "" then b else some s
  | none => b

/-- embedding of `extract_rows_from_table` (sarasota_scraper.py:147-167):
header texts are stripped and lowercased, each body row is zipped with
the headers into a dict, and the record fields are looked up under
their synonym labels. -/
def extract_rows_from_table (headers : List String) (body : List (List String)) :
    List ArrestRow :=
  let hs := headers.map lowerStrip
  body.map (fun cells =>
    let data := pyDictGet (hs.zip (cells.map stripStr))
    { arrest_date := pyOr (data "arrest date") (data "date")
      name := data "name"
      dob := pyOr (data "dob") (data "date of birth")
      age := data "age"
      charges := pyOr (data "charges") (data "charge")
      agency := pyOr (data "agency") (data "arresting agency")
      booking_number := pyOr (data "booking #") (data "booking number")
      bond := data "bond" })

/-- C6 fails as stated: the extracted record's `source_url` is the
`ArrestRow` dataclass default `ENTRY_URL`, not null, so the claimed
all-other-fields-null record is not what the table strategy yields. -/
theorem c6_counterexample :
    extract_rows_from_table ["Name", "Arrest Date", "Booking #"]
        [["Jane Doe", "01/02/2025", "B12345"]] ≠
      [{ arrest_date := some "01/02/2025", name := some "Jane Doe",
         booking_number := some "B12345", source_url := none }] := by
  decide

/-- C6 (amended): the header row `["Name","Arrest Date","Booking #"]`
with single body row `["Jane Doe","01/02/2025","B12345"]` yields
exactly one record with name, arrest_date and booking_number set,
every other field null except `source_url`, which carries the
dataclass default entry URL. -/
theorem c6_table_amended :
    extract_rows_from_table ["Name", "Arrest Date", "Booking #"]
        [["Jane Doe", "01/02/2025", "B12345"]] =
      [{ arrest_date := some "01/02/2025", name := some "Jane Doe",
         booking_number := some "B12345", source_url := some ENTRY_URL }] := by
  decide

/-! ## Card-strategy extraction (`extract_rows_from_cards`,
sarasota_scraper.py:170-204)

Each regular expression applied with `re.search(..., re.I)` is
embedded as a backtracking scanner over the item text: try the pattern
at every position left to right; `\s*` is matched greedily and backed
off; a trailing character-class `+` capture takes the maximal run. -/

/-- case-insensitive character comparison (re.I). -/
def charLowerEq (a b : Char) : Bool := a.toLower == b.toLower

/-- case-insensitive literal match at the head of `cs`. -/
def litAt : List Char → List Char → Bool
  | [], _ => true
  | _ :: _, [] => false
  | l :: ls, c :: cs => charLowerEq l c && litAt ls cs

/-- length of the maximal run of `p`-characters at the head. -/
def runLen (p : Char → Bool) (cs : List Char) : Nat := (cs.takeWhile p).length

/-- length of the maximal `\s*` run at the head. -/
def wsCount (cs : List Char) : Nat := runLen Char.isWhitespace cs

/-- capture a nonempty maximal run of `C`-characters at the head,
capped by `cap` (the `(C+)` tail of a pattern). -/
def clsCapture (C : Char → Bool) (cap : Nat → Nat) (u : List Char) :
    Option (List Char) :=
  let r := runLen C u
  if 1 ≤ r then some (u.take (cap r)) else none

/-- match `\s*(C+)` at the head of `t`, greedy with backtracking:
consume `k` whitespace characters (starting from the maximal run and
backing off) and then the class capture. -/
def wsThenClsGo (C : Char → Bool) (cap : Nat → Nat) (t : List Char) :
    Nat → Option (List Char)
  | 0 => clsCapture C cap t
  | k + 1 =>
    match clsCapture C cap (t.drop (k + 1)) with
    | some r => some r
    | none => wsThenClsGo C cap t k

def wsThenCls (C : Char → Bool) (cap : Nat → Nat) (t : List Char) :
    Option (List Char) :=
  wsThenClsGo C cap t (wsCount t)

/-- `re.search` position scan: try `step` at every suffix, leftmost
match first. -/
def searchSfx {α : Type} (step : List Char → Option α) : List Char → Option α
  | [] => step []
  | c :: cs =>
    match step (c :: cs) with
    | some r => some r
    | none => searchSfx step cs

/-- regex class `.` / `[^\n]`. -/
def nonNl (c : Char) : Bool := c != '\n'

/-- regex class `[0-9/\-: ]`. -/
def dateCls (c : Char) : Bool :=
  c.isDigit || c == '/' || c == '-' || c == ':' || c == ' '

/-- regex class `[0-9/\-]`. -/
def dobCls (c : Char) : Bool := c.isDigit || c == '/' || c == '-'

/-- regex class `[A-Za-z0-9\-]`. -/
def bookCls (c : Char) : Bool := c.isAlpha || c.isDigit || c == '-'

/-- `re.search(r"Name:\s*(.+)", text, re.I)`. -/
def searchName (cs : List Char) : Option (List Char) :=
  searchSfx (fun s =>
    if litAt "name:".data s then wsThenCls nonNl id (s.drop 5) else none) cs

/-- `re.search(r"Age:\s*(\d{1,3})", text, re.I)`. -/
def searchAge (cs : List Char) : Option (List Char) :=
  searchSfx (fun s =>
    if litAt "age:".data s then
      wsThenCls Char.isDigit (fun r => min r 3) (s.drop 4)
    else none) cs

/-- `re.search(r"Bond:\s*([^\n]+)", text, re.I)`. -/
def searchBond (cs : List Char) : Option (List Char) :=
  searchSfx (fun s =>
    if litAt "bond:".data s then wsThenCls nonNl id (s.drop 5) else none) cs

/-- the `Date:\s*([0-9/\-: ]+)` part of the arrest-date pattern at one
position. -/
def arrestDateStep (u : List Char) : Option (List Char) :=
  if litAt "date:".data u then wsThenCls dateCls id (u.drop 5) else none

/-- tail of `Arrest\s*Date:\s*([0-9/\-: ]+)` after the literal
`Arrest`: back off over `\s*`, then `Date:`, then the capture. -/
def arrestDateTailGo (t : List Char) : Nat → Option (List Char)
  | 0 => arrestDateStep t
  | k + 1 =>
    match arrestDateStep (t.drop (k + 1)) with
    | some r => some r
    | none => arrestDateTailGo t k

/-- `re.search(r"Arrest\s*Date:\s*([0-9/\-: ]+)", text, re.I)`. -/
def searchArrestDate (cs : List Char) : Option (List Char) :=
  searchSfx (fun s =>
    if litAt "arrest".data s then arrestDateTailGo (s.drop 6) (wsCount (s.drop 6))
    else none) cs

/-- `re.search(r"(DOB|Date of Birth):\s*([0-9/\-]+)", text, re.I)`,
group 2. -/
def searchDob (cs : List Char) : Option (List Char) :=
  searchSfx (fun s =>
    (if litAt "dob:".data s then wsThenCls dobCls id (s.drop 4) else none) <|>
    (if litAt "date of birth:".data s then wsThenCls dobCls id (s.drop 14)
     else none)) cs

/-- `re.search(r"(Agency|Arresting Agency):\s*(.+)", text, re.I)`,
group 2. -/
def searchAgency (cs : List Char) : Option (List Char) :=
  searchSfx (fun s =>
    (if litAt "agency:".data s then wsThenCls nonNl id (s.drop 7) else none) <|>
    (if litAt "arresting agency:".data s then wsThenCls nonNl id (s.drop 17)
     else none)) cs

/-- `re.search(r"(Charge|Charges):\s*(.+)", text, re.I)`, group 2. -/
def searchCharges (cs : List Char) : Option (List Char) :=
  searchSfx (fun s =>
    (if litAt "charge:".data s then wsThenCls nonNl id (s.drop 7) else none) <|>
    (if litAt "charges:".data s then wsThenCls nonNl id (s.drop 8) else none)) cs

/-- the `(No\.|#|Number):\s*([A-Za-z0-9\-]+)` part of the booking
pattern at one position: the three label alternatives in regex
order. -/
def bookingStep (u : List Char) : Option (List Char) :=
  (if litAt "no.:".data u then wsThenCls bookCls id (u.drop 4) else none) <|>
  (if litAt "#:".data u then wsThenCls bookCls id (u.drop 2) else none) <|>
  (if litAt "number:".data u then wsThenCls bookCls id (u.drop 7) else none)

/-- tail of `(Booking\s*(No\.|#|Number)):\s*([A-Za-z0-9\-]+)` after the
literal `Booking`: back off over `\s*`, then one of the label
alternatives. -/
def bookingTailGo (t : List Char) : Nat → Option (List Char)
  | 0 => bookingStep t
  | k + 1 =>
    match bookingStep (t.drop (k + 1)) with
    | some r => some r
    | none => bookingTailGo t k

/-- `re.search(r"(Booking\s*(No\.|#|Number)):\s*([A-Za-z0-9\-]+)",
text, re.I)`, group 3. -/
def searchBooking (cs : List Char) : Option (List Char) :=
  searchSfx (fun s =>
    if litAt "booking".data s then bookingTailGo (s.drop 7) (wsCount (s.drop 7))
    else none) cs

/-- `.group(n).strip()` on an optional capture. -/
def capStr (o : Option (List Char)) : Option String :=
  o.map (fun l => String.mk (stripChars l))

/-- one card/list item's record (body of the loop at
sarasota_scraper.py:175-203). -/
def extract_row_from_card_text (text : String) : ArrestRow :=
  { arrest_date := capStr (searchArrestDate text.data)
    name := capStr (searchName text.data)
    dob := capStr (searchDob text.data)
    age := capStr (searchAge text.data)
    charges := capStr (searchCharges text.data)
    agency := capStr (searchAgency text.data)
    booking_number := capStr (searchBooking text.data)
    bond := capStr (searchBond text.data) }

/-- embedding of `extract_rows_from_cards` (sarasota_scraper.py:170-204)
over the item texts found in the container. -/
def extract_rows_from_cards (items : List String) : List ArrestRow :=
  items.map extract_row_from_card_text

/-- C7 fails as stated: the booking regex only accepts the labels
`Booking No.` (with a period), `Booking #` and `Booking Number`, so
the item text's `Booking No:` label matches nothing and
`booking_number` is null, not `"A987"`. -/
theorem c7_counterexample :
    (extract_rows_from_cards ["Name: John Smith\nAge: 34\nBooking No: A987"]).map
        (fun r => r.booking_number) = [none] := by
  decide

/-- C7 (amended): the item text yields `name="John Smith"` and
`age="34"` but a null `booking_number` (its label lacks the period the
regex requires); with the label written `Booking No.:` the same text
yields `booking_number="A987"`. -/
theorem c7_cards_amended :
    extract_rows_from_cards ["Name: John Smith\nAge: 34\nBooking No: A987"] =
      [{ name := some "John Smith", age := some "34" }] ∧
    extract_rows_from_cards ["Name: John Smith\nAge: 34\nBooking No.: A987"] =
      [{ name := some "John Smith", age := some "34",
         booking_number := some "A987" }] := by
  exact ⟨by decide, by decide⟩

/-! ## Pagination (`paginate`, sarasota_scraper.py:235-250)

The page at each loop iteration is abstracted as the state of the
next/pagination candidates: present (`count() > 0`), enabled
(`is_enabled()`), and whether the click succeeds (a failed click is
swallowed and the next candidate tried). -/

/-- state of one next/pagination candidate selector at one
iteration. -/
structure NextCandidate where
  present : Bool
  enabled : Bool
  clickOk : Bool
deriving DecidableEq, Repr

/-- one iteration of the `while True` body: `clicked` is true iff some
candidate is present, enabled and successfully clicked. -/
def clickStep (cands : List NextCandidate) : Bool :=
  cands.any (fun c => c.present && c.enabled && c.clickOk)

/-- the `paginate` loop observed for `fuel` iterations starting at
iteration `t`: `some n` means the loop exited at iteration `n`,
`none` means it was still running when the observation budget ran
out. -/
def paginateFuel (page : Nat → List NextCandidate) : Nat → Nat → Option Nat
  | _, 0 => none
  | t, fuel + 1 =>
    if clickStep (page t) then paginateFuel page (t + 1) fuel
    else some t

/-- C8: the code has no outer page cap — `scrape_for_date` calls
`paginate` directly (line 331) and `paginate` loops while any
next-candidate stays clickable, so on a page whose Next control is
enabled at every iteration the session never terminates, and the only
way the loop ever exits is that no candidate is present, enabled and
clickable. -/
theorem c8_paginate_no_cap :
    (∀ fuel t,
        paginateFuel (fun _ => [⟨true, true, true⟩]) t fuel = none) ∧
    (∀ (page : Nat → List NextCandidate) (t fuel n : Nat),
        paginateFuel page t fuel = some n → clickStep (page n) = false) := by
  constructor
  · intro fuel
    induction fuel with
    | zero => intro t; rfl
    | succ f ih =>
      intro t
      simp only [paginateFuel, clickStep, List.any_cons, List.any_nil]
      exact ih (t + 1)
  · intro page t fuel
    induction fuel generalizing t with
    | zero => intro n h; exact Option.noConfusion h
    | succ f ih =>
      intro n h
      simp only [paginateFuel] at h
      split at h
      · exact ih (t + 1) n h
      · rename_i hc
        have : t = n := by
          simpa using h
        subst this
        simpa using hc

/-- C8 (witness): the exit characterization applied to a page with no
pagination controls at all. -/
theorem c8_witness :
    clickStep ((fun _ => ([] : List NextCandidate)) 0) = false := by
  exact c8_paginate_no_cap.2 (fun _ => []) 0 1 0 (by decide)

/-! ## Sink upload (`upload_to_google_sheets`,
sarasota_scraper.py:381-420) and the tail of `main` (lines 450-460) -/

/-- preferred column order hard-coded at sarasota_scraper.py:404-405. -/
def col_order : List String :=
  ["arrest_date", "name", "dob", "age", "booking_number",
   "agency", "bond", "arrest_time", "charges", "source_url"]

/-- header actually written: the preferred order restricted to the
columns present in the DataFrame
(`[c for c in col_order if c in df.columns]`). -/
def sheetHeader (columns : List String) : List String :=
  col_order.filter (fun c => columns.contains c)

/-- `dataclasses.asdict` of an `ArrestRow`: keys in dataclass field
order. -/
def rowDict (r : ArrestRow) : List (String × Option String) :=
  [("arrest_date", r.arrest_date), ("name", r.name), ("dob", r.dob),
   ("age", r.age), ("charges", r.charges), ("agency", r.agency),
   ("booking_number", r.booking_number), ("bond", r.bond),
   ("arrest_time", r.arrest_time), ("source_url", r.source_url)]

/-- columns of `pd.DataFrame(records)`: the records are `asdict`
dictionaries that all share the same keys. -/
def dfColumns : List ArrestRow → List String
  | [] => []
  | r :: _ => (rowDict r).map Prod.fst

/-- outcome of `upload_to_google_sheets`. -/
inductive UploadOutcome where
  | skipped
  | uploaded (header : List String)
  | raised
deriving DecidableEq, Repr

/-- embedding of `upload_to_google_sheets` (sarasota_scraper.py:381-420):
empty input returns early; otherwise the sheet interaction either
succeeds — writing the restricted preferred header then the rows — or
raises, in which case the error is printed and the exception
re-raised (line 420). `sinkOk` abstracts whether any sheet operation
raises. -/
def upload_to_google_sheets (records : List ArrestRow) (sinkOk : Bool) :
    UploadOutcome :=
  if records = [] then .skipped
  else if sinkOk then .uploaded (sheetHeader (dfColumns records))
  else .raised

/-- observable outcome of the tail of `main`. -/
structure RunOutcome where
  dumped : Bool
  crashed : Bool
deriving DecidableEq, Repr

/-- embedding of sarasota_scraper.py:450-460: the optional JSON dump is
written first; then, unless suppressed or the aggregate is empty, the
upload runs — and an exception it re-raises is not caught in `main`,
so it escapes and the run dies with a traceback. -/
def mainFinish (allRecords : List ArrestRow)
    (outputRequested noUpload sinkOk : Bool) : RunOutcome :=
  let dumped := outputRequested
  if ¬noUpload ∧ allRecords ≠ [] then
    match upload_to_google_sheets allRecords sinkOk with
    | .raised => ⟨dumped, true⟩
    | _ => ⟨dumped, false⟩
  else ⟨dumped, false⟩

/-- blank record (all dataclass defaults). -/
def blankRow : ArrestRow := {}

/-- C9 fails as stated: a sink failure is printed but then re-raised,
and `main` does not catch it, so the run crashes — though the optional
file dump was already written before the upload was attempted. -/
theorem c9_counterexample :
    upload_to_google_sheets [blankRow] false = .raised ∧
    mainFinish [blankRow] true false false =
      { dumped := true, crashed := true } := by
  exact ⟨by decide, by decide⟩

/-- C9 (amended): with a non-empty record list the sink writes a
header in the fixed preferred column order restricted to the columns
present — for records coming from `asdict(ArrestRow)` that is the full
ten-column order — and on sink failure the error is reported and
re-raised, crashing the run, while the aggregate remains available via
the optional file dump written before the upload. -/
theorem c9_sink_amended :
    (∀ columns, (sheetHeader columns).Sublist col_order ∧
        ∀ c ∈ sheetHeader columns, c ∈ columns) ∧
    (∀ (r : ArrestRow) (rs : List ArrestRow),
        sheetHeader (dfColumns (r :: rs)) = col_order) ∧
    (∀ (records : List ArrestRow), records ≠ [] →
        upload_to_google_sheets records true =
          .uploaded (sheetHeader (dfColumns records))) ∧
    (∀ (records : List ArrestRow) (outputRequested : Bool), records ≠ [] →
        mainFinish records outputRequested false false =
          { dumped := outputRequested, crashed := true }) := by
  refine ⟨?_, ?_, ?_, ?_⟩
  · intro columns
    refine ⟨List.filter_sublist col_order, ?_⟩
    intro c hc
    rw [sheetHeader, List.mem_filter] at hc
    simpa using hc.2
  · intro r rs
    rfl
  · intro records h
    simp [upload_to_google_sheets, h]
  · intro records outputRequested h
    simp [mainFinish, upload_to_google_sheets, h]

/-- C9 (witness): the amended theorem applied to the one-record
aggregate. -/
theorem c9_witness :
    upload_to_google_sheets [blankRow] true =
      .uploaded (sheetHeader (dfColumns [blankRow])) ∧
    mainFinish [blankRow] true false false =
      { dumped := true, crashed := true } ∧
    "name" ∈ ["name"] := by
  refine ⟨c9_sink_amended.2.2.1 [blankRow] (by decide),
    c9_sink_amended.2.2.2 [blankRow] true (by decide),
    (c9_sink_amended.1 ["name"]).2 "name" (by decide)⟩

/-! ## The v2 variant's record shape (`scrape_for_date`,
sarasota_scraper_v2.py:126-161)

A result record is the Python dict literal
`{"arrest_date": date_str, "raw_text": ..., "scraped_at": ...}`,
modelled as an association list in literal key order; `scraped_at`
(`datetime.now().isoformat()`) is abstracted as a parameter. -/

/-- the dict literal built at sarasota_scraper_v2.py:137-141 and
154-158. -/
def mkV2Rec (dateStr text now : String) : List (String × String) :=
  [("arrest_date", dateStr), ("raw_text", text), ("scraped_at", now)]

/-- the table-row loop (lines 132-143): a row contributes a record iff
its text is nonempty and longer than 10 characters. -/
def v2RowRecords (dateStr : String) (rowTexts : List String) (now : String) :
    List (List (String × String)) :=
  (rowTexts.filter (fun t => t ≠ "" && 10 < t.length)).map
    (fun t => mkV2Rec dateStr t now)

/-- case-sensitive substring occurrence at the head. -/
def litHere : List Char → List Char → Bool
  | [], _ => true
  | _ :: _, [] => false
  | n :: ns, c :: cs => n == c && litHere ns cs

/-- Python `needle in hay` on strings. -/
def containsSub (needle : List Char) : List Char → Bool
  | [] => litHere needle []
  | c :: cs => litHere needle (c :: cs) || containsSub needle cs

/-- the all-text fallback (lines 146-158): when the row loop produced
nothing, split the body text into stripped nonempty lines and keep
those longer than 20 characters. -/
def v2Fallback (dateStr allText now : String) : List (List (String × String)) :=
  if !containsSub "no results".data (allText.data.map Char.toLower) &&
     100 < allText.length then
    ((((splitOnChar '\n' allText.data).map
        (fun l => String.mk (stripChars l))).filter
        (fun l => l ≠ "")).filter (fun l => 20 < l.length)).map
      (fun t => mkV2Rec dateStr t now)
  else []

/-- embedding of the result assembly of the v2 `scrape_for_date`
(sarasota_scraper_v2.py:126-161). -/
def scrape_v2_records (dateStr : String) (rowTexts : List String)
    (allText now : String) : List (List (String × String)) :=
  let results := v2RowRecords dateStr rowTexts now
  if results = [] then v2Fallback dateStr allText now else results

theorem mem_scrape_v2 (dateStr now allText : String) (rowTexts : List String)
    (rec : List (String × String))
    (h : rec ∈ scrape_v2_records dateStr rowTexts allText now) :
    ∃ t, rec = mkV2Rec dateStr t now := by
  simp only [scrape_v2_records] at h
  split at h
  · simp only [v2Fallback] at h
    split at h
    · obtain ⟨t, _, ht⟩ := List.mem_map.mp h
      exact ⟨t, ht.symm⟩
    · simp at h
  · simp only [v2RowRecords] at h
    obtain ⟨t, _, ht⟩ := List.mem_map.mp h
    exact ⟨t, ht.symm⟩

/-- C10: every record the v2 variant produces is a mapping with
exactly the keys `arrest_date`, `raw_text`, `scraped_at` in that
order, `arrest_date` is the requested date string verbatim, no
`ArrestRecord` field is ever populated, and a row whose text is 10
characters or shorter contributes no record. -/
theorem c10_v2_record_shape (dateStr now allText : String)
    (rowTexts : List String) :
    (∀ rec ∈ scrape_v2_records dateStr rowTexts allText now,
        rec.map Prod.fst = ["arrest_date", "raw_text", "scraped_at"] ∧
        rec.lookup "arrest_date" = some dateStr ∧
        rec.lookup "name" = none ∧
        rec.lookup "booking_number" = none ∧
        rec.lookup "charges" = none) ∧
    v2RowRecords dateStr rowTexts now =
      (rowTexts.filter (fun t => 10 < t.length)).map
        (fun t => mkV2Rec dateStr t now) := by
  constructor
  · intro rec hrec
    obtain ⟨t, rfl⟩ := mem_scrape_v2 dateStr now allText rowTexts rec hrec
    exact ⟨rfl, rfl, rfl, rfl, rfl⟩
  · have hcong : ∀ t ∈ rowTexts,
        (t ≠ "" && 10 < t.length) = (10 < t.length : Bool) := by
      intro t _
      by_cases h : 10 < t.length
      · have hne : t ≠ "" := by
          intro he
          subst he
          exact absurd h (by decide)
        simp [h, hne]
      · simp [h]
    simp only [v2RowRecords]
    rw [List.filter_congr hcong]

/-- C10 (witness): the record-shape property applied to a concrete
scrape with one long row. -/
theorem c10_witness :
    (mkV2Rec "2025-01-01" "Jane Doe arrested on suspicion" "T0").map Prod.fst =
      ["arrest_date", "raw_text", "scraped_at"] ∧
    (mkV2Rec "2025-01-01" "Jane Doe arrested on suspicion" "T0").lookup
      "arrest_date" = some "2025-01-01" := by
  have h := (c10_v2_record_shape "2025-01-01" "T0" ""
      ["Jane Doe arrested on suspicion"]).1
      (mkV2Rec "2025-01-01" "Jane Doe arrested on suspicion" "T0") (by decide)
  exact ⟨h.1, h.2.1⟩

end Sarasota
